import Mathlib

/-!
Verification of the SyncLite synchronizer against its specification.

The Rust sources are shallowly embedded: timestamps (`chrono::DateTime<Utc>`)
become `Int`, `HashMap<String, FileEntry>` becomes an association list with
map semantics (`lookupEntry` / `insertEntry`), and the filesystem is an
explicit oracle.  Iteration order of `HashMap`/`HashSet` is unspecified in
Rust; the embedding fixes one admissible order (list order) and all claims
proved here depend only on membership / lookup, never on positions.
-/

namespace SyncLite

/-- Embeds `FileEntry` from `src/models/sync_config.rs`:
`hash : Option<String>`, `is_deleted : bool`, `last_modified : DateTime<Utc>`
(timestamps become `Int`). -/
structure FileEntry where
  hash : Option String
  is_deleted : Bool
  last_modified : Int
deriving Repr, DecidableEq

/-- `SyncState = HashMap<String, FileEntry>` embedded as an association list
with map semantics. -/
def SyncState := List (String × FileEntry)

instance : DecidableEq SyncState := by
  unfold SyncState
  infer_instance

/-- `HashMap::get` on the embedded state. -/
def lookupEntry : SyncState → String → Option FileEntry
  | [], _ => none
  | (k, v) :: rest, p => if k = p then some v else lookupEntry rest p

/-- `HashMap::insert` on the embedded state: replace if present, append if not. -/
def insertEntry : SyncState → String → FileEntry → SyncState
  | [], p, e => [(p, e)]
  | (k, v) :: rest, p, e =>
      if k = p then (k, e) :: rest else (k, v) :: insertEntry rest p e

/-- `HashMap::keys`. -/
def stateKeys (s : SyncState) : List String := s.map Prod.fst

/-- The key-union loop of `determine_winning_files`
(`src/sync/merge_states.rs` lines 68-75): all unique paths of both states. -/
def allFiles (server peer : SyncState) : List String :=
  (stateKeys server ++ stateKeys peer).dedup

/-- The four output vectors of `determine_winning_files`
(`src/sync/merge_states.rs` lines 63-66). -/
structure WinLists where
  server_winning_files : List String
  peer_winning_files : List String
  files_to_delete_from_server : List String
  files_to_delete_from_peer : List String
deriving Repr, DecidableEq

def emptyWinLists : WinLists := ⟨[], [], [], []⟩

/-- The body of the per-path `match` of `determine_winning_files`
(`src/sync/merge_states.rs` lines 77-116), translated clause by clause:
both present with differing hashes resolves by strictly greater
`last_modified` (note that the server-wins tombstone branch of the source
pushes onto `files_to_delete_from_server`, exactly as the source does);
one-sided entries only act when they are tombstones; ties do nothing. -/
def processPath (server peer : SyncState) (acc : WinLists) (path : String) :
    WinLists :=
  match lookupEntry server path, lookupEntry peer path with
  | some server_file, some peer_file =>
      if server_file.hash ≠ peer_file.hash then
        if peer_file.last_modified > server_file.last_modified then
          if peer_file.is_deleted then
            { acc with files_to_delete_from_server :=
                acc.files_to_delete_from_server ++ [path] }
          else
            { acc with peer_winning_files := acc.peer_winning_files ++ [path] }
        else if server_file.last_modified > peer_file.last_modified then
          if server_file.is_deleted then
            { acc with files_to_delete_from_server :=
                acc.files_to_delete_from_server ++ [path] }
          else
            { acc with server_winning_files :=
                acc.server_winning_files ++ [path] }
        else acc
      else acc
  | some server_file, none =>
      if server_file.is_deleted then
        { acc with files_to_delete_from_peer :=
            acc.files_to_delete_from_peer ++ [path] }
      else acc
  | none, some peer_file =>
      if peer_file.is_deleted then
        { acc with files_to_delete_from_server :=
            acc.files_to_delete_from_server ++ [path] }
      else acc
  | none, none => acc

/-- `determine_winning_files` (`src/sync/merge_states.rs` lines 59-124). -/
def determine_winning_files (server peer : SyncState) : WinLists :=
  (allFiles server peer).foldl (processPath server peer) emptyWinLists

/-- Entry equivalence per spec section 3: both tombstones with equal
timestamps, or both live with equal hashes. -/
def entryEquiv (e1 e2 : FileEntry) : Bool :=
  (e1.is_deleted && e2.is_deleted && e1.last_modified == e2.last_modified) ||
  (!e1.is_deleted && !e2.is_deleted && e1.hash == e2.hash)

/-- Equivalence at one path: both states hold an entry there and the two
entries are equivalent per spec section 3. -/
def pairEquivAt (s1 s2 : SyncState) (p : String) : Bool :=
  match lookupEntry s1 p, lookupEntry s2 p with
  | some e1, some e2 => entryEquiv e1 e2
  | _, _ => false

/-- State equivalence per spec section 3: same key set and
per-path equivalent entries. -/
def equivStates (s1 s2 : SyncState) : Prop :=
  ∀ p ∈ allFiles s1 s2, pairEquivAt s1 s2 p = true

instance (s1 s2 : SyncState) : Decidable (equivStates s1 s2) := by
  unfold equivStates
  exact List.decidableBAll _ _

/-- Embeds `PeersState` from `src/models/peers_config.rs`. -/
structure PeersState where
  leader : Option String
  peers : List String
deriving Repr, DecidableEq

/-- `PeersConfig::add_peer` from `src/models/peers_config.rs` lines 36-43:
the state mutation is an unconditional `peers.push(peer)`. -/
def add_peer (s : PeersState) (peer : String) : PeersState :=
  { s with peers := s.peers ++ [peer] }

/-- `PeersConfig::remove_peer` from `src/models/peers_config.rs`:
`peers.retain(|p| p != peer)`. -/
def remove_peer (s : PeersState) (peer : String) : PeersState :=
  { s with peers := s.peers.filter fun p => p ≠ peer }

/-- `PeersConfig::set_peers` from `src/models/peers_config.rs`. -/
def set_peers (s : PeersState) (ps : List String) : PeersState :=
  { s with peers := ps }

/-- The older iteration `PeersConfig::add_peer` from
`src/storage/types/peers_config.rs` lines 21-25, documented as
"Add a peer to the list if not already present": it does carry the
duplicate check the live version lacks. -/
def add_peer_checked (s : PeersState) (peer : String) : PeersState :=
  if peer ∈ s.peers then s else { s with peers := s.peers ++ [peer] }

/-- The `for relative_path in relative_paths { state.insert(...) }` loop shape
shared by the batch state closures of `SyncConfig`. -/
def batchInsert (f : String → FileEntry) (paths : List String)
    (st : SyncState) : SyncState :=
  paths.foldl (fun s q => insertEntry s q (f q)) st

/-- The timestamp selection of `SyncConfig::sync_batch_delete_files`
(`src/models/sync_config.rs` lines 319-326): copy the peer entry's
`last_modified` when a peer state is supplied and holds the path, otherwise
fall back to `Utc::now()`. -/
def deleteTimestamp (peerOpt : Option SyncState) (now : Int) (p : String) :
    Int :=
  match peerOpt with
  | some peer =>
      match lookupEntry peer p with
      | some e => e.last_modified
      | none => now
  | none => now

/-- The state-updating closure of `SyncConfig::sync_batch_delete_files`
(`src/models/sync_config.rs` lines 316-338): every listed path is replaced
by a tombstone `{hash: None, is_deleted: true, last_modified}` where the
timestamp is chosen by `deleteTimestamp`. -/
def sync_batch_delete_files_state (paths : List String)
    (peerOpt : Option SyncState) (now : Int) (st : SyncState) : SyncState :=
  batchInsert (fun p => FileEntry.mk none true (deleteTimestamp peerOpt now p))
    paths st

/-- The leader's `InitialSyncPush` deletion step (`src/main.rs` lines
360-393): reconcile, then run the batch delete over
`files_to_delete_from_server` passing `Some(&peer_sync_state)`. -/
def leader_initial_sync_deletes (server peer : SyncState) (now : Int) :
    SyncState :=
  sync_batch_delete_files_state
    (determine_winning_files server peer).files_to_delete_from_server
    (some peer) now server

/-- Rust `Path::starts_with` over component lists: the first argument is the
sandbox root, the second the candidate path; true when the root's components
are a leading segment of the path's, no canonicalization involved
(`src/sandboxed/file_system.rs` guard `path.starts_with(&self.path)`). -/
def leadsWith : List String → List String → Bool
  | [], _ => true
  | _ :: _, [] => false
  | r :: rs, c :: cs => r = c && leadsWith rs cs

/-- The error kind the sandbox guard raises. -/
inductive FsErrorKind where
  | permissionDenied
deriving Repr, DecidableEq

/-- The filesystem effect each sandboxed operation performs once the guard
passes; `Except.ok` carrying one of these models "the underlying I/O call is
issued on that path", while the guard's `Except.error` path issues none. -/
inductive FsAction where
  | readF (path : List String)
  | writeF (path : List String) (contents : String)
  | deleteF (path : List String)
  | createDir (path : List String)
  | deleteDir (path : List String)
deriving Repr, DecidableEq

/-- `FileSystem::read_file` (`src/sandboxed/file_system.rs` lines 15-24). -/
def read_file (root path : List String) : Except FsErrorKind FsAction :=
  if leadsWith root path then .ok (.readF path)
  else .error .permissionDenied

/-- `FileSystem::write_file` (`src/sandboxed/file_system.rs` lines 25-38). -/
def write_file (root path : List String) (contents : String) :
    Except FsErrorKind FsAction :=
  if leadsWith root path then .ok (.writeF path contents)
  else .error .permissionDenied

/-- `FileSystem::delete_file` (`src/sandboxed/file_system.rs` lines 39-48). -/
def delete_file (root path : List String) : Except FsErrorKind FsAction :=
  if leadsWith root path then .ok (.deleteF path)
  else .error .permissionDenied

/-- `FileSystem::create_directory` (`src/sandboxed/file_system.rs` lines
49-58). -/
def create_directory (root path : List String) : Except FsErrorKind FsAction :=
  if leadsWith root path then .ok (.createDir path)
  else .error .permissionDenied

/-- `FileSystem::delete_directory` (`src/sandboxed/file_system.rs` lines
59-68). -/
def delete_directory (root path : List String) : Except FsErrorKind FsAction :=
  if leadsWith root path then .ok (.deleteDir path)
  else .error .permissionDenied

/-- Canonicalization of an absolute component path, as the spec's section
4.11 presumes: drop `.` components and let `..` consume the preceding
component.  The source never performs this step; it is defined here only to
state what the spec asks for. -/
def resolvePath (p : List String) : List String :=
  p.foldl
    (fun acc c =>
      if c = "." then acc
      else if c = ".." then acc.dropLast
      else acc ++ [c]) []

/-- The `notify::EventKind` cases the watcher distinguishes; every other
kind falls into `other`. -/
inductive EventKind where
  | create
  | remove
  | modify
  | other
deriving Repr, DecidableEq

/-- A raw filesystem event as drained from the watcher channel.  `flagged`
is a model-level annotation recording whether the echo-suppression flag
(`ignore_file_events`) was set when the event arrived; the source only ever
consults the flag for the first event of a burst (`src/main.rs` line 122). -/
structure WatchEvent where
  path : String
  kind : EventKind
  flagged : Bool
deriving Repr, DecidableEq

/-- `matches!(k, EventKind::Create(_))`. -/
def isCreate : EventKind → Bool
  | .create => true
  | _ => false

/-- `matches!(k, EventKind::Remove(_))`. -/
def isRemove : EventKind → Bool
  | .remove => true
  | _ => false

/-- `matches!(k, EventKind::Modify(_))`. -/
def isModify : EventKind → Bool
  | .modify => true
  | _ => false

/-- The filesystem as the watcher observes it at decision time:
`path_buf.exists()`, `calculate_file_hash` (`none` = the hash read failed)
and `fs::read_to_string`. -/
structure DiskOracle where
  exists_now : String → Bool
  hashResult : String → Option String
  content : String → String

/-- The two collections the watcher accumulates per burst plus the sync
state it mutates (`src/main.rs` lines 149-150). -/
structure WatchAcc where
  state : SyncState
  files_to_write : List (String × String)
  files_to_delete : List String
deriving DecidableEq

/-- The modify arms of the watcher match ((true,true,true,_) and
(true,false,_,true), `src/main.rs` lines 185-204 and 230-249): recompute the
hash and update the state when hashing succeeds (a failed hash only skips
the state update), then insert the on-disk content into `files_to_write`. -/
def modifyOutcome (disk : DiskOracle) (now : Int) (path rel : String)
    (acc : WatchAcc) : WatchAcc :=
  { acc with
    state :=
      match disk.hashResult path with
      | some h => insertEntry acc.state rel (FileEntry.mk (some h) false now)
      | none => acc.state
    files_to_write := acc.files_to_write ++ [(rel, disk.content path)] }

/-- The add arm ((true,true,false,_), `src/main.rs` lines 206-228):
`calculate_file_hash(..).unwrap()` panics when hashing fails (`none`),
otherwise a fresh live entry is inserted and the content pushed. -/
def addOutcome (disk : DiskOracle) (now : Int) (path rel : String)
    (acc : WatchAcc) : Option WatchAcc :=
  match disk.hashResult path with
  | some h =>
      some { acc with
        state := insertEntry acc.state rel (FileEntry.mk (some h) false now)
        files_to_write := acc.files_to_write ++ [(rel, disk.content path)] }
  | none => none

/-- The delete arm ((false,_,true,_), `src/main.rs` lines 251-263):
tombstone the state entry and push onto `files_to_delete`. -/
def deleteOutcome (now : Int) (rel : String) (acc : WatchAcc) : WatchAcc :=
  { acc with
    state := insertEntry acc.state rel (FileEntry.mk none true now)
    files_to_delete := acc.files_to_delete ++ [rel] }

/-- The decision `match (file_exists, has_create, has_remove, has_modify)`
of the leader watcher task (`src/main.rs` lines 183-266). -/
def leader_watcher_core (disk : DiskOracle) (now : Int) (path rel : String)
    (ex c r m : Bool) (acc : WatchAcc) : Option WatchAcc :=
  match ex, c, r, m with
  | true, true, true, _ => some (modifyOutcome disk now path rel acc)
  | true, true, false, _ => addOutcome disk now path rel acc
  | true, false, _, true => some (modifyOutcome disk now path rel acc)
  | false, _, true, _ => some (deleteOutcome now rel acc)
  | _, _, _, _ => some acc

/-- The decision `match` of the follower watcher task (`src/main.rs` lines
728-820); the source block is textually identical to the leader's. -/
def follower_watcher_core (disk : DiskOracle) (now : Int) (path rel : String)
    (ex c r m : Bool) (acc : WatchAcc) : Option WatchAcc :=
  match ex, c, r, m with
  | true, true, true, _ => some (modifyOutcome disk now path rel acc)
  | true, true, false, _ => addOutcome disk now path rel acc
  | true, false, _, true => some (modifyOutcome disk now path rel acc)
  | false, _, true, _ => some (deleteOutcome now rel acc)
  | _, _, _, _ => some acc

/-- The action the spec's section 4.7 table prescribes for a
`(exists-now, saw-create, saw-remove, saw-modify)` tuple.  Modelled from the
spec's words, to be compared with the source's decision `match`. -/
inductive SpecAction where
  | actModify
  | actAdd
  | actDelete
  | actIgnore
deriving Repr, DecidableEq

/-- The spec section 4.7 decision table, row by row.  Modelled from the
spec's words, to be compared with the source's decision `match`. -/
def specTableAction (ex c r m : Bool) : SpecAction :=
  if ex && c && r then .actModify
  else if ex && c && !r then .actAdd
  else if ex && !c && m then .actModify
  else if !ex && r then .actDelete
  else .actIgnore

/-- Does `needle` occur at the head of `hay`? -/
def matchesHere : List Char → List Char → Bool
  | [], _ => true
  | _ :: _, [] => false
  | a :: as, b :: bs => a = b && matchesHere as bs

/-- Does `needle` occur anywhere inside `hay`? -/
def containsSub : List Char → List Char → Bool
  | needle, [] => needle.isEmpty
  | needle, c :: rest => matchesHere needle (c :: rest) || containsSub needle rest

/-- Rust `str::contains` on string slices: substring containment, the test
the watcher applies to the whole absolute path (`path.contains(".synclite")`,
`src/main.rs` lines 156-160 and 700-704). -/
def strContains (hay needle : String) : Bool :=
  containsSub needle.data hay.data

/-- One path group of the leader watcher burst loop (`src/main.rs` lines
153-266): skip paths containing `.synclite` anywhere, skip paths outside the
workspace (`strip_prefix` failure, modelled by the `toRel` oracle), then
decide by the event-history tuple. -/
def leader_handle_group (disk : DiskOracle) (toRel : String → Option String)
    (now : Int) (acc : WatchAcc) (path : String) (kinds : List EventKind) :
    Option WatchAcc :=
  if strContains path ".synclite" then some acc
  else
    match toRel path with
    | none => some acc
    | some rel =>
        leader_watcher_core disk now path rel (disk.exists_now path)
          (kinds.any isCreate) (kinds.any isRemove) (kinds.any isModify) acc

/-- One path group of the follower watcher burst loop (`src/main.rs` lines
697-820), textually identical to the leader's. -/
def follower_handle_group (disk : DiskOracle) (toRel : String → Option String)
    (now : Int) (acc : WatchAcc) (path : String) (kinds : List EventKind) :
    Option WatchAcc :=
  if strContains path ".synclite" then some acc
  else
    match toRel path with
    | none => some acc
    | some rel =>
        follower_watcher_core disk now path rel (disk.exists_now path)
          (kinds.any isCreate) (kinds.any isRemove) (kinds.any isModify) acc

/-- The grouping step of the burst loop (`src/main.rs` lines 136-147):
group drained events by path, keeping every kind observed for a path. -/
def addToGroup : List (String × List EventKind) → String → EventKind →
    List (String × List EventKind)
  | [], p, k => [(p, [k])]
  | (q, ks) :: rest, p, k =>
      if q = p then (q, ks ++ [k]) :: rest
      else (q, ks) :: addToGroup rest p k

def groupEvents (events : List WatchEvent) : List (String × List EventKind) :=
  events.foldl (fun acc e => addToGroup acc e.path e.kind) []

/-- Process all groups of one burst (leader task). -/
def process_groups (disk : DiskOracle) (toRel : String → Option String)
    (now : Int) (st : SyncState) (events : List WatchEvent) :
    Option WatchAcc :=
  (groupEvents events).foldlM
    (fun acc g => leader_handle_group disk toRel now acc g.1 g.2)
    (WatchAcc.mk st [] [])

/-- Result of one iteration of the watcher loop: the accumulator and whether
a `FileUpdatePush` is emitted (`sent = true` exactly when the burst was
processed, `src/main.rs` lines 268-274). -/
structure BurstResult where
  acc : WatchAcc
  sent : Bool
deriving DecidableEq

/-- One iteration of the leader watcher loop (`src/main.rs` lines 115-275):
receive a first event; if the echo-suppression flag is set *at that moment*
the whole burst is discarded (nothing sent); otherwise sleep 150 ms, drain
every event that arrived meanwhile — without re-reading the flag — process
the groups and broadcast one `FileUpdatePush`. -/
def debounce_burst (disk : DiskOracle) (toRel : String → Option String)
    (now : Int) (st : SyncState) (first : WatchEvent)
    (drained : List WatchEvent) : Option BurstResult :=
  if first.flagged then some (BurstResult.mk (WatchAcc.mk st [] []) false)
  else
    (process_groups disk toRel now st (first :: drained)).map
      fun a => BurstResult.mk a true

/-- A directory entry of the workspace as the boot-time scan
(`compute_sync_state`, `src/sync/compute_state.rs`) walks it. -/
inductive FsTree where
  | file (name hash : String) (mtime : Int)
  | dir (name : String) (children : List FsTree)
deriving Repr

/-- Relative-path join as produced by `strip_prefix` on nested entries. -/
def joinRel (rel name : String) : String :=
  if rel = "" then name else rel ++ "/" ++ name

mutual

/-- One entry of the boot-time scan (`src/sync/compute_state.rs` lines
21-69): an entry whose *name* is exactly `.synclite` is skipped; directories
recurse; files are inserted live with their hash and mtime. -/
def scanNode (rel : String) (acc : SyncState) : FsTree → SyncState
  | FsTree.file name h t =>
      if name = ".synclite" then acc
      else insertEntry acc (joinRel rel name) (FileEntry.mk (some h) false t)
  | FsTree.dir name cs =>
      if name = ".synclite" then acc
      else scanChildren (joinRel rel name) acc cs

/-- The `for entry in entries` loop of `compute_sync_state`. -/
def scanChildren (rel : String) (acc : SyncState) : List FsTree → SyncState
  | [] => acc
  | c :: cs => scanChildren rel (scanNode rel acc c) cs

end

/-- `compute_sync_state` started at the workspace root
(`src/sync/compute_state.rs` lines 8-72). -/
def compute_sync_state (entries : List FsTree) : SyncState :=
  scanChildren "" [] entries

/-- The disk phase of `SyncConfig::sync_batch_write_files`
(`src/models/sync_config.rs` lines 259-274): create the parent directory and
write each file in turn; the `?` operator aborts the whole call at the first
failure.  `writeOk` is the filesystem oracle (directory creation + write
success for a path).  Returns the paths actually written and, on abort, the
failing path. -/
def writeAllFiles (writeOk : String → Bool) :
    List (String × String) → List String × Option String
  | [] => ([], none)
  | (p, _) :: rest =>
      if writeOk p then
        let res := writeAllFiles writeOk rest
        (p :: res.1, res.2)
      else ([], some p)

/-- The state phase of `SyncConfig::sync_batch_write_files`
(`src/models/sync_config.rs` lines 277-292): re-hash every file of the batch
and insert a live entry; a failed hash silently skips that entry. -/
def sync_batch_write_state (hashOf : String → Option String) (now : Int)
    (files : List (String × String)) (st : SyncState) : SyncState :=
  files.foldl
    (fun s pc =>
      match hashOf pc.1 with
      | some h => insertEntry s pc.1 (FileEntry.mk (some h) false now)
      | none => s) st

/-- Outcome of `sync_batch_write_files`: which paths were written to disk,
and either the updated sync state or the error that aborted the call (the
state phase never runs after an abort). -/
structure WriteBatchResult where
  written : List String
  result : Except String SyncState

/-- `SyncConfig::sync_batch_write_files` (`src/models/sync_config.rs` lines
253-293): disk phase with abort-on-first-failure, then — only if every
write succeeded — the batch state update. -/
def sync_batch_write_files (writeOk : String → Bool)
    (hashOf : String → Option String) (now : Int)
    (files : List (String × String)) (st : SyncState) : WriteBatchResult :=
  match writeAllFiles writeOk files with
  | (written, some failing) => WriteBatchResult.mk written (.error failing)
  | (written, none) =>
      WriteBatchResult.mk written
        (.ok (sync_batch_write_state hashOf now files st))

/-- Under `equivStates` every path is a no-op for `processPath`. -/
theorem processPath_equiv_noop {s1 s2 : SyncState} (h : equivStates s1 s2)
    {p : String} (hp : p ∈ allFiles s1 s2) (acc : WinLists) :
    processPath s1 s2 acc p = acc := by
  have hpe := h p hp
  unfold pairEquivAt at hpe
  unfold processPath
  cases h1 : lookupEntry s1 p with
  | none =>
      rw [h1] at hpe
      cases h2 : lookupEntry s2 p with
      | none => simp at hpe
      | some e2 => rw [h2] at hpe; simp at hpe
  | some e1 =>
      rw [h1] at hpe
      cases h2 : lookupEntry s2 p with
      | none => rw [h2] at hpe; simp at hpe
      | some e2 =>
          rw [h2] at hpe
          simp only [entryEquiv, Bool.or_eq_true, Bool.and_eq_true,
            beq_iff_eq, Bool.not_eq_true'] at hpe
          rcases hpe with ⟨⟨_, _⟩, htime⟩ | ⟨⟨_, _⟩, hhash⟩
          · by_cases hh : e1.hash ≠ e2.hash
            · simp [hh, htime]
            · simp [hh]
          · simp [hhash]

theorem foldl_noop {α β : Type} (f : α → β → α) (l : List β) (init : α)
    (h : ∀ b ∈ l, ∀ a, f a b = a) : l.foldl f init = init := by
  induction l generalizing init with
  | nil => rfl
  | cons x xs ih =>
      simp only [List.foldl_cons]
      rw [h x (by simp) init]
      exact ih _ fun b hb a => h b (by simp [hb]) a

/-- Claim C1.  The spec says a path held live by only one side goes into that
side's send list (`Asend`), so cold start (scenario S1) ships `a.txt` to the
empty follower.  The code's `(Some(server_file), None)` arm of
`determine_winning_files` only acts when the entry is a tombstone: a live
entry held by one side alone lands in no output list at all, so the leader
sends nothing.  Evaluating the code at the S1 input shows all four lists
empty instead of `server_winning_files = [a.txt]`. -/
theorem c1_cold_start_live_only_path_dropped :
    determine_winning_files [("a.txt", FileEntry.mk (some "h1") false 0)] [] =
      emptyWinLists ∧
    "a.txt" ∉ (determine_winning_files
      [("a.txt", FileEntry.mk (some "h1") false 0)] []).server_winning_files := by
  constructor
  · rfl
  · intro h
    simp only [show determine_winning_files
        [("a.txt", FileEntry.mk (some "h1") false 0)] [] = emptyWinLists
      from rfl] at h
    exact absurd h (by simp [emptyWinLists])

/-- Claim C2.  The spec says a strictly newer tombstone on side X sends the
path to side Y's delete list, for either choice of X.  When the *server*
holds the newer tombstone, the source (merge_states.rs line 92, under the
comment saying the server wins) pushes the path onto
`files_to_delete_from_server` — the server's own delete list — instead of
`files_to_delete_from_peer`, so the deletion never reaches the peer.
Evaluating the code at that input exhibits the wrong list. -/
theorem c2_server_tombstone_win_lands_in_wrong_delete_list :
    determine_winning_files
        [("a.txt", FileEntry.mk none true 2)]
        [("a.txt", FileEntry.mk (some "h1") false 1)] =
      WinLists.mk [] [] ["a.txt"] [] ∧
    "a.txt" ∉ (determine_winning_files
        [("a.txt", FileEntry.mk none true 2)]
        [("a.txt", FileEntry.mk (some "h1") false 1)]).files_to_delete_from_peer := by
  refine ⟨rfl, ?_⟩
  intro h
  rw [show determine_winning_files
      [("a.txt", FileEntry.mk none true 2)]
      [("a.txt", FileEntry.mk (some "h1") false 1)] =
    WinLists.mk [] [] ["a.txt"] [] from rfl] at h
  exact absurd h (by simp)

/-- Claim C3.  For equivalent states (same key set; per path either both
tombstones with equal timestamps or both live with equal hashes)
`determine_winning_files` returns four empty lists, and an equal-timestamp
last-writer-wins tie contributes nothing to any list. -/
theorem c3_reconciler_fixpoint (A B : SyncState) (h : equivStates A B) :
    determine_winning_files A B = emptyWinLists ∧
    ∀ (acc : WinLists) (p : String) (e1 e2 : FileEntry),
      lookupEntry A p = some e1 → lookupEntry B p = some e2 →
      e1.last_modified = e2.last_modified →
      processPath A B acc p = acc := by
  constructor
  · unfold determine_winning_files
    exact foldl_noop _ _ _ fun b hb a => processPath_equiv_noop h hb a
  · intro acc p e1 e2 h1 h2 htime
    unfold processPath
    rw [h1, h2]
    by_cases hh : e1.hash ≠ e2.hash
    · simp [hh, htime]
    · simp [hh]

/-- Concrete instance for `c3_reconciler_fixpoint`: a one-file state is
equivalent to itself and reconciling it against itself yields no work. -/
theorem c3_reconciler_fixpoint_witness :
    equivStates [("a.txt", FileEntry.mk (some "h1") false 0)]
        [("a.txt", FileEntry.mk (some "h1") false 0)] ∧
    determine_winning_files [("a.txt", FileEntry.mk (some "h1") false 0)]
        [("a.txt", FileEntry.mk (some "h1") false 0)] = emptyWinLists := by
  refine ⟨by decide, ?_⟩
  exact (c3_reconciler_fixpoint _ _ (by decide)).1

/-- Claim C8.  The spec declares `add_peer` idempotent (no duplicates); the
live `models::PeersConfig::add_peer` pushes unconditionally, so adding an
already-present id duplicates it.  The older iteration in
`storage/types/peers_config.rs` performs the documented membership check,
which the live code dropped.  Evaluating both at the failing input. -/
theorem c8_add_peer_not_idempotent :
    add_peer (PeersState.mk none ["p1"]) "p1" =
      PeersState.mk none ["p1", "p1"] ∧
    add_peer (PeersState.mk none ["p1"]) "p1" ≠ PeersState.mk none ["p1"] ∧
    add_peer_checked (PeersState.mk none ["p1"]) "p1" =
      PeersState.mk none ["p1"] := by
  refine ⟨rfl, ?_, by decide⟩
  intro h
  have := congrArg PeersState.peers h
  simp [add_peer] at this

theorem lookupEntry_insertEntry (s : SyncState) (p : String) (e : FileEntry)
    (q : String) :
    lookupEntry (insertEntry s p e) q =
      if p = q then some e else lookupEntry s q := by
  induction s with
  | nil =>
      by_cases hpq : p = q <;> simp [insertEntry, lookupEntry, hpq]
  | cons kv rest ih =>
      obtain ⟨k, v⟩ := kv
      by_cases hkp : k = p
      · subst hkp
        by_cases hkq : k = q <;> simp [insertEntry, lookupEntry, hkq]
      · by_cases hkq : k = q
        · subst hkq
          simp [insertEntry, lookupEntry, hkp, Ne.symm hkp]
        · simp [insertEntry, lookupEntry, hkp, hkq, ih]

theorem batchInsert_cons (f : String → FileEntry) (q : String)
    (rest : List String) (st : SyncState) :
    batchInsert f (q :: rest) st = batchInsert f rest (insertEntry st q (f q)) :=
  rfl

theorem lookup_batchInsert_not_mem (f : String → FileEntry)
    (paths : List String) (st : SyncState) (p : String) (hp : p ∉ paths) :
    lookupEntry (batchInsert f paths st) p = lookupEntry st p := by
  induction paths generalizing st with
  | nil => rfl
  | cons q rest ih =>
      have hpq : q ≠ p := fun h => hp (by simp [h])
      have hrest : p ∉ rest := fun h => hp (by simp [h])
      rw [batchInsert_cons, ih _ hrest, lookupEntry_insertEntry]
      simp [hpq]

theorem lookup_batchInsert_mem (f : String → FileEntry)
    (paths : List String) (st : SyncState) (p : String) (hp : p ∈ paths) :
    lookupEntry (batchInsert f paths st) p = some (f p) := by
  induction paths generalizing st with
  | nil => simp at hp
  | cons q rest ih =>
      by_cases hrest : p ∈ rest
      · rw [batchInsert_cons]
        exact ih _ hrest
      · have hqp : q = p := by
          rcases List.mem_cons.mp hp with h | h
          · exact h.symm
          · exact absurd h hrest
        subst hqp
        rw [batchInsert_cons, lookup_batchInsert_not_mem _ _ _ _ hrest,
          lookupEntry_insertEntry]
        simp

/-- Claim C5.  A leader-side delete triggered by the follower's newer
tombstone records the follower's `last_modified` on the tombstone (copied
from the follower's entry when present, current clock only when absent);
in scenario S3 the leader ends with a tombstone carrying timestamp `T+1`
(embedded as `1`, with the leader's live entry at `T = 0`), for any value of
the leader's own clock. -/
theorem c5_delete_tombstone_copies_follower_timestamp
    (paths : List String) (peer st : SyncState) (now : Int) (p : String)
    (hp : p ∈ paths) :
    lookupEntry (sync_batch_delete_files_state paths (some peer) now st) p =
      some (FileEntry.mk none true (deleteTimestamp (some peer) now p)) ∧
    (∀ e, lookupEntry peer p = some e →
      deleteTimestamp (some peer) now p = e.last_modified) ∧
    (lookupEntry peer p = none → deleteTimestamp (some peer) now p = now) ∧
    lookupEntry (leader_initial_sync_deletes
        [("a.txt", FileEntry.mk (some "h1") false 0)]
        [("a.txt", FileEntry.mk none true 1)] now) "a.txt" =
      some (FileEntry.mk none true 1) := by
  refine ⟨lookup_batchInsert_mem _ _ _ _ hp, ?_, ?_, rfl⟩
  · intro e he
    simp [deleteTimestamp, he]
  · intro he
    simp [deleteTimestamp, he]

/-- Concrete instance for `c5_delete_tombstone_copies_follower_timestamp`. -/
theorem c5_delete_tombstone_witness :
    "a.txt" ∈ ["a.txt"] ∧
    lookupEntry (sync_batch_delete_files_state ["a.txt"]
        (some [("a.txt", FileEntry.mk none true 1)]) 5
        [("a.txt", FileEntry.mk (some "h1") false 0)]) "a.txt" =
      some (FileEntry.mk none true
        (deleteTimestamp (some [("a.txt", FileEntry.mk none true 1)]) 5
          "a.txt")) := by
  refine ⟨by decide, ?_⟩
  exact (c5_delete_tombstone_copies_follower_timestamp ["a.txt"]
    [("a.txt", FileEntry.mk none true 1)]
    [("a.txt", FileEntry.mk (some "h1") false 0)] 5 "a.txt" (by decide)).1

/-- Counterexample to claim C6: `/root/ws/../secret/f.txt` lexically starts
with the root `/root/ws` yet resolves outside it, and every one of the five
sandboxed operations accepts it and issues the underlying I/O call instead
of failing with `PermissionDenied`. -/
theorem c6_dotdot_escape_accepted :
    leadsWith ["root", "ws"] ["root", "ws", "..", "secret", "f.txt"] = true ∧
    leadsWith ["root", "ws"]
      (resolvePath ["root", "ws", "..", "secret", "f.txt"]) = false ∧
    read_file ["root", "ws"] ["root", "ws", "..", "secret", "f.txt"] =
      .ok (.readF ["root", "ws", "..", "secret", "f.txt"]) ∧
    write_file ["root", "ws"] ["root", "ws", "..", "secret", "f.txt"] "x" =
      .ok (.writeF ["root", "ws", "..", "secret", "f.txt"] "x") ∧
    delete_file ["root", "ws"] ["root", "ws", "..", "secret", "f.txt"] =
      .ok (.deleteF ["root", "ws", "..", "secret", "f.txt"]) ∧
    create_directory ["root", "ws"] ["root", "ws", "..", "secret", "f.txt"] =
      .ok (.createDir ["root", "ws", "..", "secret", "f.txt"]) ∧
    delete_directory ["root", "ws"] ["root", "ws", "..", "secret", "f.txt"] =
      .ok (.deleteDir ["root", "ws", "..", "secret", "f.txt"]) :=
  ⟨rfl, rfl, rfl, rfl, rfl, rfl, rfl⟩

/-- Claim C6 as amended: the sandbox guard of every `FileSystem` operation
is the purely lexical component-prefix test `leadsWith` — an operation fails
with `PermissionDenied` (performing no I/O) exactly when the raw,
uncanonicalized path does not start with the root, and otherwise the I/O is
issued even if `..` components make the path resolve outside the root. -/
theorem c6_sandbox_guard_is_lexical (root p : List String) (contents : String) :
    (leadsWith root p = false →
      read_file root p = .error .permissionDenied ∧
      write_file root p contents = .error .permissionDenied ∧
      delete_file root p = .error .permissionDenied ∧
      create_directory root p = .error .permissionDenied ∧
      delete_directory root p = .error .permissionDenied) ∧
    (leadsWith root p = true →
      read_file root p = .ok (.readF p) ∧
      write_file root p contents = .ok (.writeF p contents) ∧
      delete_file root p = .ok (.deleteF p) ∧
      create_directory root p = .ok (.createDir p) ∧
      delete_directory root p = .ok (.deleteDir p)) := by
  constructor
  · intro h
    refine ⟨?_, ?_, ?_, ?_, ?_⟩ <;>
      simp [read_file, write_file, delete_file, create_directory,
        delete_directory, h]
  · intro h
    refine ⟨?_, ?_, ?_, ?_, ?_⟩ <;>
      simp [read_file, write_file, delete_file, create_directory,
        delete_directory, h]

/-- Concrete instance for `c6_sandbox_guard_is_lexical`. -/
theorem c6_sandbox_guard_witness :
    leadsWith ["root", "ws"] ["elsewhere", "f.txt"] = false ∧
    read_file ["root", "ws"] ["elsewhere", "f.txt"] =
      .error .permissionDenied := by
  refine ⟨by decide, ?_⟩
  exact ((c6_sandbox_guard_is_lexical ["root", "ws"] ["elsewhere", "f.txt"]
    "x").1 (by decide)).1

theorem writeAllFiles_fail (writeOk : String → Bool)
    (pre : List (String × String)) (p : String) (c : String)
    (post : List (String × String)) (hfail : writeOk p = false)
    (hpre : ∀ q ∈ pre, writeOk q.1 = true) :
    writeAllFiles writeOk (pre ++ (p, c) :: post) =
      (pre.map Prod.fst, some p) := by
  induction pre with
  | nil => simp [writeAllFiles, hfail]
  | cons q pre' ih =>
      obtain ⟨qp, qc⟩ := q
      have hq : writeOk qp = true := hpre (qp, qc) (by simp)
      simp [writeAllFiles, hq,
        ih fun x hx => hpre x (by simp [hx])]

/-- Claim C4.  The watcher's per-group action is decided exactly by the
tuple `(exists-now, saw-create, saw-remove, saw-modify)` according to the
spec section 4.7 table, identically in the leader-side and follower-side
watcher tasks: modify rows recompute the hash and push the content, the add
row inserts a fresh live entry (panicking if the hash read fails), the
delete row tombstones the state and appends to `files_to_delete`, and every
other combination changes nothing and emits nothing. -/
theorem c4_watcher_decision_table (disk : DiskOracle) (now : Int)
    (path rel : String) (ex c r m : Bool) (acc : WatchAcc) :
    leader_watcher_core disk now path rel ex c r m acc =
      follower_watcher_core disk now path rel ex c r m acc ∧
    (specTableAction ex c r m = .actModify →
      leader_watcher_core disk now path rel ex c r m acc =
        some (modifyOutcome disk now path rel acc)) ∧
    (specTableAction ex c r m = .actAdd →
      leader_watcher_core disk now path rel ex c r m acc =
        addOutcome disk now path rel acc) ∧
    (specTableAction ex c r m = .actDelete →
      leader_watcher_core disk now path rel ex c r m acc =
        some (deleteOutcome now rel acc)) ∧
    (specTableAction ex c r m = .actIgnore →
      leader_watcher_core disk now path rel ex c r m acc = some acc) := by
  cases ex <;> cases c <;> cases r <;> cases m <;>
    simp [leader_watcher_core, follower_watcher_core, specTableAction]

/-- Concrete instance for `c4_watcher_decision_table`: a burst with no
create/remove/modify on a non-existing path is ignored. -/
theorem c4_watcher_decision_table_witness :
    specTableAction false false false false = SpecAction.actIgnore ∧
    leader_watcher_core
        (DiskOracle.mk (fun _ => false) (fun _ => none) (fun _ => ""))
        0 "p" "p" false false false false (WatchAcc.mk [] [] []) =
      some (WatchAcc.mk [] [] []) :=
  ⟨rfl,
    (c4_watcher_decision_table
      (DiskOracle.mk (fun _ => false) (fun _ => none) (fun _ => ""))
      0 "p" "p" false false false false (WatchAcc.mk [] [] [])).2.2.2.2 rfl⟩

/-- Counterexample to claim C7: a programmatic (flag-set) create event that
arrives during the 150 ms drain of a burst whose first event was an
unflagged user edit is *not* discarded — its path and content end up in the
outbound `FileUpdatePush` of that burst. -/
theorem c7_flagged_drain_event_reaches_outbound_push :
    (WatchEvent.mk "p.txt" EventKind.create true).flagged = true ∧
    debounce_burst
        (DiskOracle.mk (fun _ => true) (fun _ => some "h") (fun _ => "data"))
        (fun p => some p) 0 []
        (WatchEvent.mk "u.txt" EventKind.modify false)
        [WatchEvent.mk "p.txt" EventKind.create true] =
      some (BurstResult.mk
        (WatchAcc.mk
          [("u.txt", FileEntry.mk (some "h") false 0),
            ("p.txt", FileEntry.mk (some "h") false 0)]
          [("u.txt", "data"), ("p.txt", "data")] [])
        true) ∧
    ("p.txt", "data") ∈ [("u.txt", "data"), ("p.txt", "data")] := by
  refine ⟨rfl, rfl, by simp⟩

/-- Claim C7 as amended: the echo-suppression flag is consulted once per
burst, at the first event; a burst whose *first* event arrives while the
flag is set is discarded whole (no state change, no outbound
`FileUpdatePush`), but events drained later in a burst are never re-checked
against the flag. -/
theorem c7_flag_checked_only_at_first_event (disk : DiskOracle)
    (toRel : String → Option String) (now : Int) (st : SyncState)
    (first : WatchEvent) (drained : List WatchEvent)
    (h : first.flagged = true) :
    debounce_burst disk toRel now st first drained =
      some (BurstResult.mk (WatchAcc.mk st [] []) false) := by
  simp [debounce_burst, h]

/-- Concrete instance for `c7_flag_checked_only_at_first_event`. -/
theorem c7_flag_checked_only_at_first_event_witness :
    (WatchEvent.mk "a" EventKind.modify true).flagged = true ∧
    debounce_burst
        (DiskOracle.mk (fun _ => true) (fun _ => some "h") (fun _ => "x"))
        (fun p => some p) 0 [] (WatchEvent.mk "a" EventKind.modify true) [] =
      some (BurstResult.mk (WatchAcc.mk [] [] []) false) :=
  ⟨rfl,
    c7_flag_checked_only_at_first_event
      (DiskOracle.mk (fun _ => true) (fun _ => some "h") (fun _ => "x"))
      (fun p => some p) 0 [] (WatchEvent.mk "a" EventKind.modify true) [] rfl⟩

/-- Claim C10.  The watcher filters `.synclite` by *substring* over the
whole absolute path: any group whose path contains the character sequence
`.synclite` anywhere — including inside a plain filename such as
`notes.synclite.txt` — changes no state and contributes nothing outbound,
in both watcher tasks; the boot-time scan, by contrast, skips only entries
whose name is exactly `.synclite`, so `notes.synclite.txt` *is* included in
the scanned state: the two filters disagree on such paths. -/
theorem c10_synclite_filters_disagree
    (disk : DiskOracle) (toRel : String → Option String) (now : Int)
    (acc : WatchAcc) (path : String) (kinds : List EventKind)
    (h : strContains path ".synclite" = true) :
    leader_handle_group disk toRel now acc path kinds = some acc ∧
    follower_handle_group disk toRel now acc path kinds = some acc ∧
    strContains "ws/notes.synclite.txt" ".synclite" = true ∧
    compute_sync_state
        [FsTree.file "notes.synclite.txt" "h1" 3,
          FsTree.dir ".synclite" [FsTree.file "state.json" "h2" 4],
          FsTree.file "a.txt" "h3" 5] =
      [("notes.synclite.txt", FileEntry.mk (some "h1") false 3),
        ("a.txt", FileEntry.mk (some "h3") false 5)] ∧
    lookupEntry (compute_sync_state
        [FsTree.file "notes.synclite.txt" "h1" 3,
          FsTree.dir ".synclite" [FsTree.file "state.json" "h2" 4],
          FsTree.file "a.txt" "h3" 5]) "notes.synclite.txt" =
      some (FileEntry.mk (some "h1") false 3) := by
  refine ⟨?_, ?_, rfl, rfl, rfl⟩ <;>
    simp [leader_handle_group, follower_handle_group, h]

/-- Concrete instance for `c10_synclite_filters_disagree`. -/
theorem c10_synclite_filters_disagree_witness :
    strContains "ws/notes.synclite.txt" ".synclite" = true ∧
    leader_handle_group
        (DiskOracle.mk (fun _ => true) (fun _ => some "h") (fun _ => "x"))
        (fun p => some p) 0 (WatchAcc.mk [] [] [])
        "ws/notes.synclite.txt" [EventKind.create] =
      some (WatchAcc.mk [] [] []) :=
  ⟨rfl,
    (c10_synclite_filters_disagree
      (DiskOracle.mk (fun _ => true) (fun _ => some "h") (fun _ => "x"))
      (fun p => some p) 0 (WatchAcc.mk [] [] [])
      "ws/notes.synclite.txt" [EventKind.create] rfl).1⟩

/-- Counterexample to claim C9: in a batch of two files where only the first
write fails, the second file is neither written to disk nor recorded in the
sync state — the whole call aborts instead of skipping the failing file. -/
theorem c9_write_failure_aborts_batch :
    ((fun p => !(p == "a.txt")) "b.txt" = true) ∧
    sync_batch_write_files (fun p => !(p == "a.txt")) (fun _ => some "h") 0
        [("a.txt", "ca"), ("b.txt", "cb")] [] =
      WriteBatchResult.mk [] (Except.error "a.txt") ∧
    "b.txt" ∉ (sync_batch_write_files (fun p => !(p == "a.txt"))
        (fun _ => some "h") 0 [("a.txt", "ca"), ("b.txt", "cb")] []).written := by
  refine ⟨rfl, rfl, ?_⟩
  intro hmem
  rw [show (sync_batch_write_files (fun p => !(p == "a.txt"))
      (fun _ => some "h") 0 [("a.txt", "ca"), ("b.txt", "cb")] []).written = []
    from rfl] at hmem
  exact absurd hmem (by simp)

/-- Claim C9 as amended: a failing disk write in `sync_batch_write_files`
aborts the whole call — the files after the failing one are not written and
*no* state entries are recorded; per-file tolerance exists only in
`sync_batch_delete_files`, whose state loop tombstones every requested path
regardless of filesystem errors. -/
theorem c9_write_failure_is_batch_scoped (writeOk : String → Bool)
    (hashOf : String → Option String) (now : Int)
    (pre : List (String × String)) (p c : String)
    (post : List (String × String)) (st : SyncState)
    (hfail : writeOk p = false) (hpre : ∀ q ∈ pre, writeOk q.1 = true) :
    sync_batch_write_files writeOk hashOf now (pre ++ (p, c) :: post) st =
      WriteBatchResult.mk (pre.map Prod.fst) (Except.error p) ∧
    ∀ (paths : List String) (peerOpt : Option SyncState) (q : String),
      q ∈ paths →
      lookupEntry (sync_batch_delete_files_state paths peerOpt now st) q =
        some (FileEntry.mk none true (deleteTimestamp peerOpt now q)) := by
  constructor
  · unfold sync_batch_write_files
    rw [writeAllFiles_fail writeOk pre p c post hfail hpre]
  · intro paths peerOpt q hq
    exact lookup_batchInsert_mem _ _ _ _ hq

/-- Concrete instance for `c9_write_failure_is_batch_scoped`. -/
theorem c9_write_failure_is_batch_scoped_witness :
    ((fun p => !(p == "x")) "x" = false) ∧
    sync_batch_write_files (fun p => !(p == "x")) (fun _ => some "h") 0
        [("w", "cw"), ("x", "cx"), ("y", "cy")] [] =
      WriteBatchResult.mk ["w"] (Except.error "x") := by
  refine ⟨rfl, ?_⟩
  exact (c9_write_failure_is_batch_scoped (fun p => !(p == "x"))
    (fun _ => some "h") 0 [("w", "cw")] "x" "cx" [("y", "cy")] []
    rfl (by decide)).1

end SyncLite
